import Mathlib

/-!
Verification of the GrayLog input plugin (`plugins/inputs/graylog/graylog.go`).

The Go code is shallowly embedded: maps (`map[string]interface{}`) become
association lists, JSON values become an inductive type `JVal`, fallible code
returns `Except`.  Go `float64` payloads are modelled exactly (see `JNum`);
the plugin never performs arithmetic on them, it only copies them around, so
no floating-point rounding behaviour is observable.

A Go run-time panic (a failed type assertion, a nil-pointer dereference) is
modelled by `Option.none` at the function that panics.

External collaborators (`net/url`, `net`, `net/http`, `encoding/json`,
`encoding/base64`) are modelled by simplified executable functions that are
faithful on the inputs this plugin exercises; each model notes its
simplifications.  Concurrency is sequentialised: the goroutines spawned by
`Gather` are run in server-list order, which fixes one admissible schedule.
-/

namespace Graylog

/-- A `float64` payload, kept as the decimal mantissa/exponent pair it was
parsed from (value `mant * 10 ^ exp10`).  The plugin only ever copies these
values, never computes with or compares them, so an exact decimal
representation is a faithful stand-in for the IEEE double. -/
structure JNum : Type where
  mant : Int
  exp10 : Int
deriving DecidableEq

/-- A decoded Go `interface{}` value as produced by `encoding/json`, plus the
`int` dynamic type that a caller could place in a map directly (JSON decoding
itself only ever produces `float64`, i.e. `jfloat`). -/
inductive JVal : Type where
  | jint   : Int → JVal
  | jfloat : JNum → JVal
  | jstr   : String → JVal
  | jbool  : Bool → JVal
  | jnull  : JVal
  | jlist  : List JVal → JVal
  | jobj   : List (String × JVal) → JVal

/-- Shorthand for a whole-number `float64` value. -/
def jf (n : Int) : JVal := .jfloat ⟨n, 0⟩

/-- Go map assignment `m[k] = v` on the association-list representation:
replace the binding if the key is present, otherwise append it. -/
def mapInsert : List (String × JVal) → String → JVal → List (String × JVal)
  | [], k, v => [(k, v)]
  | (k', v') :: rest, k, v =>
      if k' = k then (k, v) :: rest else (k', v') :: mapInsert rest k v

/-- The prefix adjustment at the top of `flatten` (graylog.go:221-223):
`if id != "" { id = id + "_" }`. -/
def withUnderscore (id : String) : String :=
  if id = "" then id else id ++ "_"

/-- The loop of `flatten` (graylog.go:224-234), with the prefix already
adjusted by `withUnderscore`.  The `case int` arm of the Go switch executes
the type assertion `i.(float64)` on a value whose dynamic type is `int`,
which panics: modelled by `none`. -/
def flattenGo : List (String × JVal) → List (String × JVal) → String →
    Option (List (String × JVal))
  | [], fields, _ => some fields
  | (k, v) :: rest, fields, pfx =>
      match v with
      | .jint _ => none
      | .jfloat q => flattenGo rest (mapInsert fields (pfx ++ k) (.jfloat q)) pfx
      | .jobj sub =>
          match flattenGo sub fields (withUnderscore (pfx ++ k)) with
          | none => none
          | some fields' => flattenGo rest fields' pfx
      | _ => flattenGo rest fields pfx

/-- `flatten` (graylog.go:220-235): flatten a JSON hierarchy into `fields`,
joining nested keys with underscores; `none` models a panic. -/
def flatten (item : List (String × JVal)) (fields : List (String × JVal))
    (id : String) : Option (List (String × JVal)) :=
  flattenGo item fields (withUnderscore id)

/-- Modelled from the spec (section 4.3), for refinement comparison with
`flatten`: for every key `K` with value `V`, a number is stored under
`keyPrefix + "_" + K` when `keyPrefix` is non-empty, else under `K`; a
nested mapping is recursed into with that same extended prefix; everything
else is dropped.  Only floating-point leaves are collected. -/
def specFlatten : List (String × JVal) → String → List (String × JVal)
  | [], _ => []
  | (k, v) :: rest, path =>
      let key := if path = "" then k else path ++ "_" ++ k
      match v with
      | .jfloat q => (key, JVal.jfloat q) :: specFlatten rest path
      | .jobj sub => specFlatten sub key ++ specFlatten rest path
      | _ => specFlatten rest path

/-- Every value of the mapping is a `float64` leaf or a nested mapping all of
whose values are such, i.e. every leaf is a floating-point number. -/
def allFloatLeaves : List (String × JVal) → Bool
  | [] => true
  | (_, .jfloat _) :: rest => allFloatLeaves rest
  | (_, .jobj sub) :: rest => allFloatLeaves sub && allFloatLeaves rest
  | _ => false

example : flatten [("x", jf 1), ("y", .jobj [("z", jf 2)])] [] "" =
    some [("x", jf 1), ("y_z", jf 2)] := by
  simp [flatten, flattenGo, mapInsert, withUnderscore, jf]

example : flatten [("a", .jint 1)] [] "" = none := by
  simp [flatten, flattenGo, withUnderscore]

example : specFlatten [("x", jf 1), ("y", .jobj [("z", jf 2)])] "" =
    [("x", jf 1), ("y_z", jf 2)] := by
  simp [specFlatten, jf]

/-! ## Strings: `strings.Contains` -/

/-- `pat` is a prefix of `s` (character lists). -/
def isPrefixL : List Char → List Char → Bool
  | [], _ => true
  | _ :: _, [] => false
  | a :: as, b :: bs => a = b && isPrefixL as bs

/-- `pat` occurs as a contiguous substring of `s` (character lists). -/
def containsL (pat : List Char) : List Char → Bool
  | [] => isPrefixL pat []
  | c :: rest => isPrefixL pat (c :: rest) || containsL pat rest

/-- Model of Go `strings.Contains(s, pat)`. -/
def goContains (s pat : String) : Bool :=
  containsL pat.toList s.toList

example : goContains "http://h:12900/system/metrics/multiple" "multiple" = true := by decide
example : goContains "http://h:12900/system/metrics/namespace/org" "multiple" = false := by
  decide

/-! ## `net/url` (simplified model)

Only the pieces the plugin reads are modelled: `url.Parse` fails exactly on
ASCII control characters (Go: "invalid control character in URL"); a parsed
URL retains the raw string (Go's `URL.String()` re-serialisation is modelled
as the identity on the accepted inputs) and its host component (the text
between `"://"` and the next `/`; empty for scheme-less URLs). -/

structure GoURL : Type where
  raw : String
  host : String

/-- The characters after the first `"://"`, if any. -/
def afterScheme : List Char → Option (List Char)
  | ':' :: '/' :: '/' :: rest => some rest
  | _ :: rest => afterScheme rest
  | [] => none

/-- Host (authority) component of a URL string. -/
def hostOf (s : String) : String :=
  match afterScheme s.toList with
  | none => ""
  | some r => String.mk (r.takeWhile (fun c => c ≠ '/'))

/-- Model of `url.Parse` (graylog.go:253): `none` models a non-nil error
together with a nil `*URL` result. -/
def urlParse (s : String) : Option GoURL :=
  if s.toList.any (fun c => c.toNat < 32 ∨ c.toNat = 127) then none
  else some { raw := s, host := hostOf s }

/-- Model of `URL.String()`. -/
def urlString (u : GoURL) : String := u.raw

/-- Model of `net.SplitHostPort` (graylog.go:191): `none` models a non-nil
error (no colon, or an unbracketed multi-colon authority; the IPv6 bracket
form is not modelled). -/
def splitHostPort (hostport : String) : Option (String × String) :=
  let cs := hostport.toList
  if cs.count ':' = 1 then
    some (String.mk (cs.takeWhile (fun c => c ≠ ':')),
          String.mk ((cs.dropWhile (fun c => c ≠ ':')).drop 1))
  else none

example : hostOf "http://gl:12900/system/metrics/multiple" = "gl:12900" := by decide
example : splitHostPort "gl:12900" = some ("gl", "12900") := by decide
example : splitHostPort "glhost" = none := by decide

/-! ## `encoding/base64` URL encoding -/

/-- UTF-8 encoding of one character, as byte values. -/
def utf8Bytes (c : Char) : List Nat :=
  let n := c.toNat
  if n < 128 then [n]
  else if n < 2048 then [192 + n / 64, 128 + n % 64]
  else if n < 65536 then [224 + n / 4096, 128 + n / 64 % 64, 128 + n % 64]
  else [240 + n / 262144, 128 + n / 4096 % 64, 128 + n / 64 % 64, 128 + n % 64]

/-- The bytes of a Go string (UTF-8). -/
def strBytes (s : String) : List Nat :=
  (s.toList.map utf8Bytes).flatten

/-- Character `n` of the URL-safe base64 alphabet. -/
def b64c (n : Nat) : Char :=
  "ABCDEFGHIJKLMNOPQRSTUVWXYZabcdefghijklmnopqrstuvwxyz0123456789-_".toList.getD n 'A'

/-- Model of Go `base64.URLEncoding.EncodeToString` (padded, URL-safe
alphabet) on a byte list. -/
def goBase64URL : List Nat → String
  | [] => ""
  | [a] => String.mk [b64c (a / 4), b64c (a % 4 * 16), '=', '=']
  | [a, b] => String.mk [b64c (a / 4), b64c (a % 4 * 16 + b / 16), b64c (b % 16 * 4), '=']
  | a :: b :: c :: rest =>
      String.mk [b64c (a / 4), b64c (a % 4 * 16 + b / 16),
        b64c (b % 16 * 4 + c / 64), b64c (c % 64)] ++ goBase64URL rest

example : goBase64URL (strBytes "user:pass") = "dXNlcjpwYXNz" := by decide

/-! ## `encoding/json.Marshal` of `Messagebody` -/

/-- JSON string escaping as performed by Go `encoding/json` (with its
default HTML escaping); `\u` output for other control characters is
restricted to the ones the plugin can produce. -/
def jsonEscapeChar (c : Char) : List Char :=
  if c = '"' then ['\\', '"']
  else if c = '\\' then ['\\', '\\']
  else if c = '\n' then ['\\', 'n']
  else if c = '\r' then ['\\', 'r']
  else if c = '\t' then ['\\', 't']
  else if c = '<' then "\\u003c".toList
  else if c = '>' then "\\u003e".toList
  else if c = '&' then "\\u0026".toList
  else if c.toNat < 32 then
    "\\u00".toList ++ [b64c 0] -- placeholder digits, unreachable for metric names
  else [c]

/-- A JSON string literal for `s`. -/
def jsonQuote (s : String) : String :=
  "\"" ++ String.mk ((s.toList.map jsonEscapeChar).flatten) ++ "\""

/-- Model of `json.Marshal(&Messagebody{Metrics: metrics})`
(graylog.go:258-259): the body `{"metrics":[...]}`.  `json.Marshal` cannot
fail on a `[]string`, so the error branch at graylog.go:260-262 is not
reachable in the model. -/
def jsonMarshalMessagebody (metrics : List String) : String :=
  "\x7b\"metrics\":[" ++ String.intercalate "," (metrics.map jsonQuote) ++ "]\x7d"

example : jsonMarshalMessagebody ["a.b", "c.d"] = "\x7b\"metrics\":[\"a.b\",\"c.d\"]\x7d" := by
  decide

/-! ## HTTP layer -/

/-- An outbound HTTP request as built by `http.NewRequest` plus
`req.Header.Add` (graylog.go:266-273). -/
structure HttpRequest : Type where
  method : String
  url : String
  headers : List (String × String)
  body : String

/-- A received HTTP response (status line and fully read body; a body read
error is not modelled). -/
structure HttpResponse : Type where
  statusCode : Nat
  body : String

/-- The behaviour of an `HTTPClient` (graylog.go:52-65): one request in, a
response or a transport error out. -/
def ClientFun : Type := HttpRequest → Except String HttpResponse

/-- Model of `net/http.StatusText`, restricted to status codes used in this
development (Go returns `""` for unknown codes). -/
def statusText (code : Nat) : String :=
  if code = 200 then "OK"
  else if code = 404 then "Not Found"
  else if code = 500 then "Internal Server Error"
  else if code = 503 then "Service Unavailable"
  else ""

/-- The configured plugin (the `GrayLog` struct, graylog.go:34-50; the TLS
fields and the lazily initialised client are external collaborators and are
not part of the model). -/
structure GrayLog : Type where
  servers : List String
  metrics : List String
  username : String
  password : String

/-- The request-building half of `sendRequest` (graylog.go:244-273): headers,
Basic-Auth, URL parsing, the `multiple`-mode switch to POST with a JSON body,
and `http.NewRequest` (whose own error cannot occur once the URL parsed). -/
def sendRequestCore (h : GrayLog) (serverURL : String) : Except String HttpRequest :=
  let headers := [("Content-Type", "application/json"),
                  ("Accept", "application/json"),
                  ("Authorization",
                    "Basic " ++ goBase64URL (strBytes (h.username ++ ":" ++ h.password)))]
  match urlParse serverURL with
  | none => .error ("Invalid server URL \"" ++ serverURL ++ "\"")
  | some requestURL =>
      let multiple := goContains (urlString requestURL) "multiple"
      let method := if multiple then "POST" else "GET"
      let content := if multiple then jsonMarshalMessagebody h.metrics else ""
      .ok { method := method, url := urlString requestURL,
            headers := headers, body := content }

/-- The error built at graylog.go:290-295 for a non-200 status. -/
def statusErrMsg (u : String) (code : Nat) : String :=
  "Response from url \"" ++ u ++ "\" has status code " ++ toString code ++
    " (" ++ statusText code ++ "), expected " ++ toString 200 ++ " (" ++ statusText 200 ++ ")"

/-- `sendRequest` (graylog.go:244-299): build the request, execute it through
the client, fail on a non-200 status, otherwise return the body.  The
response time returned by the Go function is wall-clock time, ignored by the
only caller, and not modelled. -/
def sendRequest (h : GrayLog) (client : ClientFun) (serverURL : String) :
    Except String String :=
  match sendRequestCore h serverURL with
  | .error e => .error e
  | .ok req =>
      match client req with
      | .error e => .error e
      | .ok resp =>
          if resp.statusCode ≠ 200 then
            .error (statusErrMsg (urlString ((urlParse serverURL).getD ⟨serverURL, ""⟩))
              resp.statusCode)
          else .ok resp.body

/-! ## `encoding/json` parsing (simplified model)

A fuel-indexed recursive-descent parser for the JSON subset this plugin
exchanges (no `\uXXXX` escapes).  Numbers are decoded exactly (as rationals)
instead of rounding to `float64`; the plugin copies decoded numbers without
arithmetic, so the difference is unobservable in the properties below. -/

def isWs (c : Char) : Bool := c = ' ' || c = '\n' || c = '\t' || c = '\r'

def skipWs (cs : List Char) : List Char := cs.dropWhile isWs

/-- Decode one escape character after a backslash. -/
def escDecode (c : Char) : Option Char :=
  if c = '"' then some '"'
  else if c = '\\' then some '\\'
  else if c = '/' then some '/'
  else if c = 'n' then some '\n'
  else if c = 't' then some '\t'
  else if c = 'r' then some '\r'
  else if c = 'b' then some (Char.ofNat 8)
  else if c = 'f' then some (Char.ofNat 12)
  else none

/-- Parse the remainder of a JSON string literal (after the opening quote),
returning its characters and the rest of the input. -/
def parseStrChars : List Char → Option (List Char × List Char)
  | [] => none
  | '\\' :: e :: rest =>
      match escDecode e with
      | none => none
      | some d =>
          match parseStrChars rest with
          | none => none
          | some (s, r) => some (d :: s, r)
  | c :: rest =>
      if c = '"' then some ([], rest)
      else if c = '\\' then none
      else
        match parseStrChars rest with
        | none => none
        | some (s, r) => some (c :: s, r)

/-- Numeric value of a digit list. -/
def digitsVal (ds : List Char) : Nat :=
  ds.foldl (fun a c => a * 10 + (c.toNat - 48)) 0

/-- Parse a JSON number. -/
def parseNumber (cs : List Char) : Option (JNum × List Char) :=
  let (neg, cs1) :=
    match cs with
    | '-' :: r => (true, r)
    | _ => (false, cs)
  let intDs := cs1.takeWhile Char.isDigit
  if intDs = [] then none
  else
    let cs2 := cs1.drop intDs.length
    let fracStep : Option (List Char × List Char) :=
      match cs2 with
      | '.' :: r =>
          let ds := r.takeWhile Char.isDigit
          if ds = [] then none else some (ds, r.drop ds.length)
      | _ => some ([], cs2)
    match fracStep with
    | none => none
    | some (fracDs, cs3) =>
        let expStep : Option (Bool × List Char × List Char) :=
          match cs3 with
          | 'e' :: r | 'E' :: r =>
              let (esign, r1) :=
                match r with
                | '-' :: r' => (true, r')
                | '+' :: r' => (false, r')
                | _ => (false, r)
              let ds := r1.takeWhile Char.isDigit
              if ds = [] then none else some (esign, ds, r1.drop ds.length)
          | _ => some (false, [], cs3)
        match expStep with
        | none => none
        | some (esign, expDs, cs4) =>
            let mag : Int := Int.ofNat (digitsVal (intDs ++ fracDs))
            let mant : Int := if neg then -mag else mag
            let expSigned : Int :=
              if esign then -(Int.ofNat (digitsVal expDs)) else Int.ofNat (digitsVal expDs)
            some (⟨mant, expSigned - Int.ofNat fracDs.length⟩, cs4)

/-- Parser mode: one JSON value, a non-empty member list of an object
(returned as `jobj`), or a non-empty element list of an array (returned as
`jlist`). -/
inductive PMode : Type where
  | val : PMode
  | members : PMode
  | elems : PMode

/-- One fuel-indexed recursive-descent step.  In `members`/`elems` mode the
closing brace/bracket is consumed and the collected bindings/elements are
returned wrapped in `jobj`/`jlist`. -/
def parseStep : Nat → PMode → List Char → Option (JVal × List Char)
  | 0, _, _ => none
  | fuel + 1, .val, cs =>
      match skipWs cs with
      | [] => none
      | c :: rest =>
          if c = 'n' then
            match rest with
            | 'u' :: 'l' :: 'l' :: r => some (.jnull, r)
            | _ => none
          else if c = 't' then
            match rest with
            | 'r' :: 'u' :: 'e' :: r => some (.jbool true, r)
            | _ => none
          else if c = 'f' then
            match rest with
            | 'a' :: 'l' :: 's' :: 'e' :: r => some (.jbool false, r)
            | _ => none
          else if c = '"' then
            match parseStrChars rest with
            | none => none
            | some (s, r) => some (.jstr (String.mk s), r)
          else if c = '\x7b' then
            match skipWs rest with
            | '\x7d' :: r => some (.jobj [], r)
            | cs2 => parseStep fuel .members cs2
          else if c = '[' then
            match skipWs rest with
            | ']' :: r => some (.jlist [], r)
            | cs2 => parseStep fuel .elems cs2
          else
            match parseNumber (c :: rest) with
            | none => none
            | some (q, r) => some (.jfloat q, r)
  | fuel + 1, .members, cs =>
      match skipWs cs with
      | '"' :: r =>
          match parseStrChars r with
          | none => none
          | some (k, r1) =>
              match skipWs r1 with
              | ':' :: r2 =>
                  match parseStep fuel .val r2 with
                  | none => none
                  | some (v, r3) =>
                      match skipWs r3 with
                      | ',' :: r4 =>
                          match parseStep fuel .members r4 with
                          | some (.jobj ms, r5) => some (.jobj ((String.mk k, v) :: ms), r5)
                          | _ => none
                      | '\x7d' :: r4 => some (.jobj [(String.mk k, v)], r4)
                      | _ => none
              | _ => none
      | _ => none
  | fuel + 1, .elems, cs =>
      match parseStep fuel .val cs with
      | none => none
      | some (v, r) =>
          match skipWs r with
          | ',' :: r2 =>
              match parseStep fuel .elems r2 with
              | some (.jlist vs, r3) => some (.jlist (v :: vs), r3)
              | _ => none
          | ']' :: r2 => some (.jlist [v], r2)
          | _ => none

/-- Parse a complete JSON document (no trailing data). -/
def jsonParse (s : String) : Option JVal :=
  match parseStep (2 * s.length + 4) .val s.toList with
  | none => none
  | some (v, r) => if skipWs r = [] then some v else none

example : jsonParse " \x7b\"a\": [1, 2.5, \"s\"], \"b\": null\x7d " =
    some (.jobj [("a", .jlist [jf 1, .jfloat ⟨25, -1⟩, .jstr "s"]), ("b", .jnull)]) := by
  rfl

/-! ## `json.Unmarshal` into `ResponseMetrics` (graylog.go:22-32, 196) -/

/-- The `Metric` struct (graylog.go:27-32). -/
structure Metric : Type where
  fullName : String
  name : String
  type : String
  fields : List (String × JVal)

/-- The `ResponseMetrics` struct (graylog.go:22-25); its unexported `total`
field is never touched by `json.Unmarshal` and is omitted. -/
structure ResponseMetrics : Type where
  metrics : List Metric

/-- Decode a string-typed struct field: an absent key or JSON `null` leaves
the zero value `""`; a non-string value is an unmarshal type error.
(Go's case-insensitive key fallback is not modelled.) -/
def decodeStringField (fs : List (String × JVal)) (key : String) : Except String String :=
  match List.lookup key fs with
  | none => .ok ""
  | some (.jstr s) => .ok s
  | some .jnull => .ok ""
  | some _ => .error ("json: cannot unmarshal value into field " ++ key ++ " of type string")

/-- Decode the `metric` field (a `map[string]interface` value). -/
def decodeFieldsMap (fs : List (String × JVal)) : Except String (List (String × JVal)) :=
  match List.lookup "metric" fs with
  | none => .ok []
  | some (.jobj o) => .ok o
  | some .jnull => .ok []
  | some _ => .error "json: cannot unmarshal value into field metric of type map"

/-- Decode one element of the `metrics` array into a `Metric`. -/
def decodeMetric : JVal → Except String Metric
  | .jobj fs =>
      match decodeStringField fs "full_name" with
      | .error e => .error e
      | .ok fullName =>
          match decodeStringField fs "name" with
          | .error e => .error e
          | .ok name =>
              match decodeStringField fs "type" with
              | .error e => .error e
              | .ok ty =>
                  match decodeFieldsMap fs with
                  | .error e => .error e
                  | .ok fields => .ok ⟨fullName, name, ty, fields⟩
  | .jnull => .ok ⟨"", "", "", []⟩
  | _ => .error "json: cannot unmarshal value into Go value of type Metric"

/-- Decode the elements of the `metrics` array. -/
def decodeMetricList : List JVal → Except String (List Metric)
  | [] => .ok []
  | v :: rest =>
      match decodeMetric v with
      | .error e => .error e
      | .ok m =>
          match decodeMetricList rest with
          | .error e => .error e
          | .ok ms => .ok (m :: ms)

/-- Decode a JSON document into `ResponseMetrics`. -/
def decodeResponseMetrics : JVal → Except String ResponseMetrics
  | .jobj fs =>
      match List.lookup "metrics" fs with
      | none => .ok ⟨[]⟩
      | some (.jlist xs) =>
          match decodeMetricList xs with
          | .error e => .error e
          | .ok ms => .ok ⟨ms⟩
      | some .jnull => .ok ⟨[]⟩
      | some _ => .error "json: cannot unmarshal value into field metrics of type list"
  | .jnull => .ok ⟨[]⟩
  | _ => .error "json: cannot unmarshal value into Go value of type ResponseMetrics"

/-- Model of `json.Unmarshal([]byte(resp), &dat)` (graylog.go:196). -/
def jsonUnmarshalRM (body : String) : Except String ResponseMetrics :=
  match jsonParse body with
  | none => .error "invalid JSON document"
  | some v => decodeResponseMetrics v

/-! ## `gatherServer` and `Gather` -/

/-- One record handed to `acc.AddFields` (graylog.go:208): measurement name,
field mapping, tag mapping. -/
structure Emitted : Type where
  measurement : String
  fields : List (String × JVal)
  tags : List (String × String)

/-- The tag map built at graylog.go:201-206. -/
def metricTags (m : Metric) (host port : String) : List (String × String) :=
  [("server", host), ("port", port), ("name", m.name), ("type", m.type)]

/-- The loop over `dat.Metrics` (graylog.go:199-209): flatten each record's
fields and emit one accumulator record; `none` models a `flatten` panic. -/
def emitMetrics (host port : String) : List Metric → Option (List Emitted)
  | [] => some []
  | m :: rest =>
      match flatten m.fields [] "" with
      | none => none
      | some fs =>
          match emitMetrics host port rest with
          | none => none
          | some es => some (⟨m.fullName, fs, metricTags m host port⟩ :: es)

/-- `gatherServer` (graylog.go:182-211).  The outer `none` models a panic:
graylog.go:191 reads `requestURL.Host` before the `url.Parse` error is
checked, so a failed parse is a nil dereference and the error return at
graylog.go:193-195 is dead; the `net.SplitHostPort` error is discarded with
`_`, leaving empty host/port on failure.  Emission is returned as a list
instead of mutating the accumulator. -/
def gatherServer (h : GrayLog) (client : ClientFun) (serverURL : String) :
    Option (Except String (List Emitted)) :=
  match sendRequest h client serverURL with
  | .error e => some (.error e)
  | .ok resp =>
      match urlParse serverURL with
      | none => none
      | some requestURL =>
          let hp := (splitHostPort requestURL.host).getD ("", "")
          match jsonUnmarshalRM resp with
          | .error e => some (.error e)
          | .ok dat =>
              match emitMetrics hp.1 hp.2 dat.metrics with
              | none => none
              | some ems => some (.ok ems)

/-- The fan-out loop of `Gather` (graylog.go:149-160) sequentialised in
server-list order: accumulate each server's emissions, capture each error
(the channel is drained into `errorStrings` at graylog.go:163-166); `none`
models a panic in some task. -/
def gatherLoop (h : GrayLog) (client : ClientFun) :
    List String → List Emitted → List String → Option (List Emitted × List String)
  | [], acc, errs => some (acc, errs)
  | s :: rest, acc, errs =>
      match gatherServer h client s with
      | none => none
      | some (.ok ems) => gatherLoop h client rest (acc ++ ems) errs
      | some (.error e) => gatherLoop h client rest acc (errs ++ [e])

/-- `Gather` (graylog.go:127-172): run every server's gather, then either
succeed (no captured error) or return the newline-joined combined error.
The lazy HTTP-client/TLS initialisation (graylog.go:130-145) configures the
injected `client` and is outside the model. -/
def Gather (h : GrayLog) (client : ClientFun) :
    Option (List Emitted × Option String) :=
  match gatherLoop h client h.servers [] [] with
  | none => none
  | some (acc, errorStrings) =>
      some (acc,
        if errorStrings.length = 0 then none
        else some (String.intercalate "\n" errorStrings))

/-! ## Helper lemmas: `flatten` against its specification -/

/-- Fold a list of bindings into a fields map with Go map assignment. -/
def insertAll (fields pairs : List (String × JVal)) : List (String × JVal) :=
  pairs.foldl (fun fs p => mapInsert fs p.1 p.2) fields

theorem insertAll_append (fields xs ys : List (String × JVal)) :
    insertAll fields (xs ++ ys) = insertAll (insertAll fields xs) ys := by
  simp [insertAll, List.foldl_append]

theorem specKey_eq (path k : String) :
    (if path = "" then k else path ++ "_" ++ k) = withUnderscore path ++ k := by
  unfold withUnderscore
  by_cases hp : path = "" <;> simp [hp]

theorem flattenGo_spec (m : List (String × JVal)) (path : String)
    (hm : allFloatLeaves m = true) :
    ∀ fields, flattenGo m fields (withUnderscore path) =
      some (insertAll fields (specFlatten m path)) := by
  induction m, path using specFlatten.induct with
  | case1 path => intro fields; simp [flattenGo, specFlatten, insertAll]
  | case2 k rest path q ih =>
      intro fields
      rw [flattenGo, specFlatten]
      rw [specKey_eq path k]
      rw [ih (by simpa [allFloatLeaves] using hm)
        (mapInsert fields (withUnderscore path ++ k) (.jfloat q))]
      rfl
  | case3 k rest path key sub ihsub ihrest =>
      intro fields
      rw [flattenGo, specFlatten]
      have hm2 : allFloatLeaves sub = true ∧ allFloatLeaves rest = true := by
        simpa [allFloatLeaves, Bool.and_eq_true] using hm
      have hkey : withUnderscore path ++ k = key := (specKey_eq path k).symm
      have hkey2 : (if path = "" then k else path ++ "_" ++ k) = key :=
        (specKey_eq path k).trans hkey
      rw [hkey, hkey2]
      rw [ihsub hm2.1 fields]
      show flattenGo rest (insertAll fields (specFlatten sub key)) (withUnderscore path) =
        some (insertAll fields (specFlatten sub key ++ specFlatten rest path))
      rw [ihrest hm2.2 (insertAll fields (specFlatten sub key))]
      rw [insertAll_append]
  | case4 k v rest path hnf hno ih =>
      intro fields
      exact absurd hm (by cases v <;> simp_all [allFloatLeaves])

theorem mapInsert_fresh (fields : List (String × JVal)) (k : String) (v : JVal)
    (h : k ∉ fields.map Prod.fst) : mapInsert fields k v = fields ++ [(k, v)] := by
  induction fields with
  | nil => rfl
  | cons p rest ih =>
      obtain ⟨k', v'⟩ := p
      simp only [List.map_cons, List.mem_cons] at h
      push_neg at h
      rw [mapInsert]
      rw [if_neg (fun hkk => h.1 hkk.symm)]
      rw [ih h.2]
      rfl

theorem insertAll_fresh (pairs : List (String × JVal)) :
    ∀ fields, (∀ p ∈ pairs, p.1 ∉ fields.map Prod.fst) →
      (pairs.map Prod.fst).Nodup → insertAll fields pairs = fields ++ pairs := by
  induction pairs with
  | nil => intro fields _ _; simp [insertAll]
  | cons p rest ih =>
      intro fields hdisj hnd
      obtain ⟨k, v⟩ := p
      simp only [List.map_cons, List.nodup_cons] at hnd
      have step : insertAll fields ((k, v) :: rest) = insertAll (mapInsert fields k v) rest := rfl
      rw [step, mapInsert_fresh fields k v (hdisj (k, v) (List.mem_cons_self _ _))]
      rw [ih (fields ++ [(k, v)]) ?_ hnd.2]
      · simp
      · intro q hq
        simp only [List.map_append, List.mem_append, List.map_cons, List.map_nil,
          List.mem_singleton]
        rintro (hmem | hk)
        · exact hdisj q (List.mem_cons_of_mem _ hq) hmem
        · exact hnd.1 (hk ▸ (List.mem_map_of_mem Prod.fst hq))


/-! ## Helper lemmas: flat mappings -/

/-- Every top-level value of the mapping is a `float64` (the mapping is flat
and numeric). -/
def allValuesFloat (m : List (String × JVal)) : Bool :=
  m.all (fun p => match p.2 with | .jfloat _ => true | _ => false)

theorem allValuesFloat_allFloatLeaves (m : List (String × JVal))
    (h : allValuesFloat m = true) : allFloatLeaves m = true := by
  induction m with
  | nil => simp [allFloatLeaves]
  | cons p rest ih =>
      obtain ⟨k, v⟩ := p
      simp only [allValuesFloat, List.all_cons, Bool.and_eq_true] at h
      cases v <;> simp_all [allFloatLeaves, allValuesFloat]

theorem specFlatten_flat (m : List (String × JVal))
    (h : allValuesFloat m = true) : specFlatten m "" = m := by
  induction m with
  | nil => simp [specFlatten]
  | cons p rest ih =>
      obtain ⟨k, v⟩ := p
      simp only [allValuesFloat, List.all_cons, Bool.and_eq_true] at h
      cases v <;> simp_all [specFlatten, allValuesFloat]

/-! ## Helper lemmas: `Gather` aggregation -/

/-- The error messages of the failing endpoints, in server order. -/
def serverErrs (h : GrayLog) (client : ClientFun) : List String :=
  h.servers.filterMap (fun s =>
    match gatherServer h client s with
    | some (.error e) => some e
    | _ => none)

/-- The emission lists of the successful endpoints, in server order. -/
def serverEmits (h : GrayLog) (client : ClientFun) : List (List Emitted) :=
  h.servers.filterMap (fun s =>
    match gatherServer h client s with
    | some (.ok ems) => some ems
    | _ => none)

theorem gatherLoop_spec (h : GrayLog) (client : ClientFun) :
    ∀ (l : List String) (acc : List Emitted) (errs : List String),
      (∀ s ∈ l, (gatherServer h client s).isSome) →
      gatherLoop h client l acc errs =
        some (acc ++ (l.filterMap (fun s =>
                match gatherServer h client s with
                | some (.ok ems) => some ems
                | _ => none)).flatten,
              errs ++ l.filterMap (fun s =>
                match gatherServer h client s with
                | some (.error e) => some e
                | _ => none)) := by
  intro l
  induction l with
  | nil => intro acc errs _; simp [gatherLoop]
  | cons s rest ih =>
      intro acc errs hall
      cases hgs : gatherServer h client s with
      | none =>
          exact absurd (hall s (List.mem_cons_self _ _)) (by simp [hgs])
      | some r =>
          cases r with
          | ok ems =>
              simp only [gatherLoop, hgs]
              rw [ih (acc ++ ems) errs (fun t ht => hall t (List.mem_cons_of_mem _ ht))]
              simp [List.filterMap_cons, hgs]
          | error e =>
              simp only [gatherLoop, hgs]
              rw [ih acc (errs ++ [e]) (fun t ht => hall t (List.mem_cons_of_mem _ ht))]
              simp [List.filterMap_cons, hgs]

/-! ## Helper lemmas: substring occurrences -/

theorem isPrefixL_self_append (pat y : List Char) : isPrefixL pat (pat ++ y) = true := by
  induction pat with
  | nil => rfl
  | cons c cs ih => simp [isPrefixL, ih]

theorem containsL_of_isPrefixL (pat s : List Char) (h : isPrefixL pat s = true) :
    containsL pat s = true := by
  cases s with
  | nil => simpa [containsL] using h
  | cons c rest => simp [containsL, h]

theorem containsL_middle (pat y : List Char) :
    ∀ x, containsL pat (x ++ (pat ++ y)) = true := by
  intro x
  induction x with
  | nil => exact containsL_of_isPrefixL pat (pat ++ y) (isPrefixL_self_append pat y)
  | cons c cs ih => simp [containsL, ih]

theorem toList_append (a b : String) : (a ++ b).toList = a.toList ++ b.toList := rfl

theorem goContains_middle (a mid b : String) : goContains (a ++ mid ++ b) mid = true := by
  rw [goContains]
  rw [show (a ++ mid ++ b).toList = a.toList ++ (mid.toList ++ b.toList) from by
    simp [toList_append, List.append_assoc]]
  exact containsL_middle mid.toList b.toList a.toList

/-! ## Helper lemmas: request construction -/

theorem sendRequestCore_parse (h : GrayLog) (u : String) (req : HttpRequest)
    (hc : sendRequestCore h u = .ok req) : urlParse u = some ⟨u, hostOf u⟩ := by
  rw [sendRequestCore] at hc
  cases hp : urlParse u with
  | none => rw [hp] at hc; exact absurd hc (by simp)
  | some ru =>
      simp only [urlParse] at hp
      split at hp
      · exact absurd hp (by simp)
      · rename_i hcond
        simp [urlParse, hcond]
        exact (Option.some.inj hp).symm

theorem sendRequestCore_shape (h : GrayLog) (u : String) (req : HttpRequest)
    (hc : sendRequestCore h u = .ok req) :
    req = { method := if goContains u "multiple" then "POST" else "GET",
            url := u,
            headers := [("Content-Type", "application/json"),
                        ("Accept", "application/json"),
                        ("Authorization", "Basic " ++
                          goBase64URL (strBytes (h.username ++ ":" ++ h.password)))],
            body := if goContains u "multiple" then jsonMarshalMessagebody h.metrics
                    else "" } := by
  have hp := sendRequestCore_parse h u req hc
  rw [sendRequestCore, hp] at hc
  simpa [urlString] using hc.symm

theorem emitMetrics_tags (host port : String) :
    ∀ (ms : List Metric) (ems : List Emitted),
      emitMetrics host port ms = some ems →
      ∀ e ∈ ems, List.lookup "server" e.tags = some host ∧
        List.lookup "port" e.tags = some port := by
  intro ms
  induction ms with
  | nil =>
      intro ems hm e he
      rw [emitMetrics] at hm
      cases hm
      exact absurd he (by simp)
  | cons m rest ih =>
      intro ems hm e he
      rw [emitMetrics] at hm
      cases hf : flatten m.fields [] "" with
      | none => rw [hf] at hm; exact absurd hm (by simp)
      | some fs =>
          rw [hf] at hm
          cases hr : emitMetrics host port rest with
          | none => rw [hr] at hm; exact absurd hm (by simp)
          | some es =>
              rw [hr] at hm
              cases hm
              rcases List.mem_cons.mp he with he1 | he2
              · subst he1
                constructor <;> rfl
              · exact ih es hr e he2

/-! ## Claim theorems: the flattening algorithm (C1, C2, C7) -/

/-- C1 (corrected): for every nested mapping whose leaves are all
floating-point numbers and whose underscore-joined leaf paths are pairwise
distinct, `flatten` called with an empty prefix stores exactly every leaf
value under its underscore-joined path: the output is precisely the
spec-side path map `specFlatten m ""`, so no float leaf is lost and no
non-numeric value (string, boolean, list, null) appears.  As frozen the
claim also covered `int`-typed leaves and colliding paths; an `int` leaf
makes `flatten` panic and a path collision loses a leaf (see the
counterexample), which forces the two added hypotheses. -/
theorem flatten_exact_on_distinct_float_leaves (m : List (String × JVal))
    (h1 : allFloatLeaves m = true)
    (h2 : ((specFlatten m "").map Prod.fst).Nodup) :
    flatten m [] "" = some (specFlatten m "") := by
  rw [flatten, flattenGo_spec m "" h1 []]
  rw [insertAll_fresh (specFlatten m "") [] (by simp) h2]
  simp

/-- C1, counterexample to the frozen claim: on the mapping
`{"a": {"b": 1.0}, "a_b": 2.0, "c": int 3}` (all leaves numbers) `flatten`
panics because of the `int` leaf, storing nothing, so leaves are lost; and
already without the `int` leaf the two distinct leaves both flatten to the
path `"a_b"`, and the leaf value `1.0` is overwritten and lost. -/
theorem flatten_loses_leaves_counterexample :
    flatten [("a", .jobj [("b", jf 1)]), ("a_b", jf 2), ("c", .jint 3)] [] "" = none
    ∧ flatten [("a", .jobj [("b", jf 1)]), ("a_b", jf 2)] [] "" = some [("a_b", jf 2)] := by
  constructor
  · simp [flatten, flattenGo, mapInsert, withUnderscore, jf]
  · simp [flatten, flattenGo, mapInsert, withUnderscore, jf]

/-- Witness for C1 at a concrete nested mapping. -/
theorem flatten_exact_on_distinct_float_leaves_witness :
    flatten [("x", jf 1), ("y", .jobj [("z", .jfloat ⟨25, -1⟩)])] [] "" =
      some [("x", jf 1), ("y_z", .jfloat ⟨25, -1⟩)] :=
  (flatten_exact_on_distinct_float_leaves
      [("x", jf 1), ("y", .jobj [("z", .jfloat ⟨25, -1⟩)])]
      (by simp [allFloatLeaves, jf])
      (by simp [specFlatten, jf])).trans
    (by simp [specFlatten, jf])

/-- C2 (code bug): `flatten` on a mapping holding an `int`-typed value does
not terminate normally with the value stored as a float.  The `case int` arm
(graylog.go:226-227) runs the type assertion `i.(float64)` on a value whose
dynamic type is `int`, which panics (modelled by `none`); nothing is
stored. -/
theorem flatten_panics_on_int_value :
    flatten [("count", .jint 7)] [] "" = none := by
  simp [flatten, flattenGo, withUnderscore]

/-- C7 (corrected): an already-flat mapping all of whose values are
floating-point numbers (with the pairwise-distinct keys a Go map guarantees)
is returned unchanged by `flatten` with empty prefix.  As frozen the claim
covered every already-flat mapping (any non-mapping values); it fails for
non-numeric values, which `flatten` silently drops (see the
counterexample). -/
theorem flatten_identity_on_flat_float_mappings (m : List (String × JVal))
    (h1 : allValuesFloat m = true)
    (h2 : (m.map Prod.fst).Nodup) :
    flatten m [] "" = some m := by
  have hfl := allValuesFloat_allFloatLeaves m h1
  have hspec := specFlatten_flat m h1
  rw [flatten, flattenGo_spec m "" hfl []]
  rw [hspec]
  rw [insertAll_fresh m [] (by simp) h2]
  simp

/-- C7, counterexample to the frozen claim: the already-flat mapping
`{"a": "x"}` (its value contains no nested mapping) flattens to the empty
mapping, not to itself: the string value is dropped. -/
theorem flatten_drops_nonnumeric_counterexample :
    flatten [("a", .jstr "x")] [] "" = some []
    ∧ some ([] : List (String × JVal)) ≠ some [("a", JVal.jstr "x")] := by
  constructor
  · simp [flatten, flattenGo, withUnderscore]
  · simp

/-- Witness for C7 at a concrete flat numeric mapping. -/
theorem flatten_identity_on_flat_float_mappings_witness :
    flatten [("lat", .jfloat ⟨5, -1⟩), ("lon", jf 3)] [] "" =
      some [("lat", .jfloat ⟨5, -1⟩), ("lon", jf 3)] :=
  flatten_identity_on_flat_float_mappings [("lat", .jfloat ⟨5, -1⟩), ("lon", jf 3)]
    (by simp [allValuesFloat, jf]) (by simp)

/-! ## Claim theorem: error aggregation (C3) -/

/-- C3 (confirmed): provided no task panics, `Gather` succeeds (returns nil)
precisely when every endpoint's gather succeeded; when at least one failed
it returns the single combined error joining the per-endpoint error messages
with newlines (in the sequentialised schedule's server order), and the
successful endpoints' emissions are all still delivered to the
accumulator. -/
theorem Gather_success_iff_all_endpoints_ok (h : GrayLog) (client : ClientFun)
    (hs : ∀ s ∈ h.servers, (gatherServer h client s).isSome) :
    Gather h client =
      some ((serverEmits h client).flatten,
        if serverErrs h client = [] then none
        else some (String.intercalate "\n" (serverErrs h client)))
    ∧ (serverErrs h client = [] ↔
        ∀ s ∈ h.servers, ∃ ems, gatherServer h client s = some (.ok ems)) := by
  constructor
  · simp only [Gather, gatherLoop_spec h client h.servers [] [] hs]
    simp [serverEmits, serverErrs, List.length_eq_zero]
  · rw [serverErrs, List.filterMap_eq_nil_iff]
    constructor
    · intro hnone s hsmem
      have hval := hnone s hsmem
      cases hgs : gatherServer h client s with
      | none => exact absurd (hs s hsmem) (by simp [hgs])
      | some r =>
          cases r with
          | ok ems => exact ⟨ems, rfl⟩
          | error e => rw [hgs] at hval; simp at hval
    · intro hok s hsmem
      obtain ⟨ems, hgs⟩ := hok s hsmem
      simp [hgs]

/-- Configuration for the C3 witness: two servers sharing one credential
set. -/
def gatherH : GrayLog :=
  { servers := ["http://gl:12900/system/metrics/namespace/a", "http://gl2:12900/bad"],
    metrics := [], username := "u", password := "p" }

/-- Client for the C3 witness: the first endpoint answers 200 with an empty
JSON object, the second answers 500. -/
def gatherClient : ClientFun := fun req =>
  if req.url = "http://gl:12900/system/metrics/namespace/a" then .ok ⟨200, "\x7b\x7d"⟩
  else .ok ⟨500, "boom"⟩

/-- Witness for C3: one endpoint succeeds (emitting its — empty — metric
set), one fails with HTTP 500; `Gather` returns the single combined error. -/
theorem Gather_success_iff_all_endpoints_ok_witness :
    Gather gatherH gatherClient =
      some ([], some (statusErrMsg "http://gl2:12900/bad" 500)) :=
  ((Gather_success_iff_all_endpoints_ok gatherH gatherClient (by decide)).1).trans (by rfl)

/-! ## Claim theorems: request construction (C4, C5) -/

/-- C4 (confirmed): the request built by `sendRequest` is a POST whose body
is the JSON object `\x7b"metrics": [<configured metric names>]\x7d` exactly when
the URL contains the substring "multiple"; otherwise it is a GET with an
empty body, regardless of the configured metric list. -/
theorem sendRequest_method_and_body_by_mode (h : GrayLog) (u : String)
    (req : HttpRequest) (hc : sendRequestCore h u = .ok req) :
    (goContains u "multiple" = true →
      req.method = "POST" ∧ req.body = jsonMarshalMessagebody h.metrics)
    ∧ (goContains u "multiple" = false →
      req.method = "GET" ∧ req.body = "") := by
  have hshape := sendRequestCore_shape h u req hc
  constructor
  · intro hm; rw [hshape]; simp [hm]
  · intro hm; rw [hshape]; simp [hm]

/-- The request the C4 witness configuration builds for a "multiple" URL. -/
def reqPost : HttpRequest :=
  (sendRequestCore { servers := [], metrics := ["a.b", "c.d"], username := "u", password := "p" }
    "http://gl:12900/system/metrics/multiple").toOption.getD ⟨"", "", [], ""⟩

/-- Witness for C4: with metric list `["a.b", "c.d"]` and a "multiple" URL
the outgoing request is a POST with body `\x7b"metrics":["a.b","c.d"]\x7d`. -/
theorem sendRequest_method_and_body_by_mode_witness :
    reqPost.method = "POST" ∧ reqPost.body = "\x7b\"metrics\":[\"a.b\",\"c.d\"]\x7d" := by
  have hthm := sendRequest_method_and_body_by_mode
    { servers := [], metrics := ["a.b", "c.d"], username := "u", password := "p" }
    "http://gl:12900/system/metrics/multiple" reqPost (by rfl)
  have hm := hthm.1 (by decide)
  exact ⟨hm.1, hm.2.trans (by rfl)⟩

/-- C5 (confirmed): every request built by `sendRequest` carries an
`Authorization` header whose value is `"Basic "` followed by the base64
encoding — with Go's `base64.URLEncoding` URL-safe alphabet — of the string
`username + ":" + password`. -/
theorem sendRequest_basic_auth_header (h : GrayLog) (u : String)
    (req : HttpRequest) (hc : sendRequestCore h u = .ok req) :
    List.lookup "Authorization" req.headers =
      some ("Basic " ++ goBase64URL (strBytes (h.username ++ ":" ++ h.password))) := by
  rw [sendRequestCore_shape h u req hc]
  rfl

/-- The request the C5 witness configuration builds. -/
def reqAuth : HttpRequest :=
  (sendRequestCore { servers := [], metrics := [], username := "myuser", password := "mypasswd" }
    "http://gl:12900/x").toOption.getD ⟨"", "", [], ""⟩

/-- Witness for C5: `myuser:mypasswd` yields the Basic-Auth header value
`Basic bXl1c2VyOm15cGFzc3dk`. -/
theorem sendRequest_basic_auth_header_witness :
    List.lookup "Authorization" reqAuth.headers = some "Basic bXl1c2VyOm15cGFzc3dk" :=
  (sendRequest_basic_auth_header
    { servers := [], metrics := [], username := "myuser", password := "mypasswd" }
    "http://gl:12900/x" reqAuth (by rfl)).trans (by rfl)

/-! ## Claim theorems: response status handling (C6) -/

theorem goContains_of_toList (s mid : String) (x y : List Char)
    (hs : s.toList = x ++ (mid.toList ++ y)) : goContains s mid = true := by
  rw [goContains, hs]
  exact containsL_middle mid.toList y x

theorem statusErrMsg_contains_url (u : String) (c : Nat) :
    goContains (statusErrMsg u c) u = true := by
  apply goContains_of_toList _ _ ("Response from url \"".toList)
    (("\" has status code " ++ toString c ++ " (" ++ statusText c ++ "), expected " ++
      toString 200 ++ " (" ++ statusText 200 ++ ")").toList)
  simp [statusErrMsg, toList_append, List.append_assoc]

theorem statusErrMsg_contains_code (u : String) (c : Nat) :
    goContains (statusErrMsg u c) (toString c) = true := by
  apply goContains_of_toList _ _
    (("Response from url \"" ++ u ++ "\" has status code ").toList)
    ((" (" ++ statusText c ++ "), expected " ++ toString 200 ++ " (" ++
      statusText 200 ++ ")").toList)
  simp [statusErrMsg, toList_append, List.append_assoc]

theorem statusErrMsg_contains_200 (u : String) (c : Nat) :
    goContains (statusErrMsg u c) "200" = true := by
  apply goContains_of_toList _ _
    (("Response from url \"" ++ u ++ "\" has status code " ++ toString c ++ " (" ++
      statusText c ++ "), expected ").toList)
    ((" (" ++ statusText 200 ++ ")").toList)
  simp [statusErrMsg, toList_append, List.append_assoc,
    show toString (200 : Nat) = "200" from by decide]

/-- C6 (confirmed): when the executed request comes back with a status other
than 200 OK, `sendRequest` fails with the protocol error built at
graylog.go:289-297, whose message contains the request URL, the actual
status code and the expected code 200, and `gatherServer` propagates that
error so the endpoint emits nothing; for a 200 response no such error is
produced — `sendRequest` returns the body. -/
theorem sendRequest_non200_error_contents (h : GrayLog) (client : ClientFun)
    (u : String) (req : HttpRequest) (resp : HttpResponse)
    (h1 : sendRequestCore h u = .ok req) (h2 : client req = .ok resp) :
    (resp.statusCode ≠ 200 →
      sendRequest h client u = .error (statusErrMsg u resp.statusCode)
      ∧ gatherServer h client u = some (.error (statusErrMsg u resp.statusCode))
      ∧ goContains (statusErrMsg u resp.statusCode) u = true
      ∧ goContains (statusErrMsg u resp.statusCode) (toString resp.statusCode) = true
      ∧ goContains (statusErrMsg u resp.statusCode) "200" = true)
    ∧ (resp.statusCode = 200 → sendRequest h client u = .ok resp.body) := by
  have hp := sendRequestCore_parse h u req h1
  have hsend : sendRequest h client u =
      (if resp.statusCode ≠ 200 then .error (statusErrMsg u resp.statusCode)
       else .ok resp.body) := by
    simp [sendRequest, h1, h2, hp, urlString]
  constructor
  · intro hne
    have he : sendRequest h client u = .error (statusErrMsg u resp.statusCode) := by
      rw [hsend, if_pos hne]
    refine ⟨he, ?_, statusErrMsg_contains_url u resp.statusCode,
      statusErrMsg_contains_code u resp.statusCode,
      statusErrMsg_contains_200 u resp.statusCode⟩
    simp only [gatherServer, he]
  · intro he200
    rw [hsend, if_neg (not_not_intro he200)]

/-- Client for the C6 witness: always answers HTTP 500. -/
def client500 : ClientFun := fun _ => .ok ⟨500, "boom"⟩

/-- The request the C6 witness configuration builds. -/
def req500 : HttpRequest :=
  (sendRequestCore { servers := [], metrics := [], username := "u", password := "p" }
    "http://gl:12900/system/metrics/namespace/a").toOption.getD ⟨"", "", [], ""⟩

/-- Witness for C6 at a concrete 500 response. -/
theorem sendRequest_non200_error_contents_witness :
    sendRequest { servers := [], metrics := [], username := "u", password := "p" } client500
        "http://gl:12900/system/metrics/namespace/a" =
      .error (statusErrMsg "http://gl:12900/system/metrics/namespace/a" 500)
    ∧ gatherServer { servers := [], metrics := [], username := "u", password := "p" } client500
        "http://gl:12900/system/metrics/namespace/a" =
      some (.error (statusErrMsg "http://gl:12900/system/metrics/namespace/a" 500))
    ∧ goContains (statusErrMsg "http://gl:12900/system/metrics/namespace/a" 500)
        "http://gl:12900/system/metrics/namespace/a" = true
    ∧ goContains (statusErrMsg "http://gl:12900/system/metrics/namespace/a" 500)
        (toString 500) = true
    ∧ goContains (statusErrMsg "http://gl:12900/system/metrics/namespace/a" 500) "200" = true :=
  (sendRequest_non200_error_contents
    { servers := [], metrics := [], username := "u", password := "p" } client500
    "http://gl:12900/system/metrics/namespace/a" req500 ⟨500, "boom"⟩
    (by rfl) (by rfl)).1 (by decide)

/-! ## Claim theorems: lenient host/port split (C8) and parse safety (C10) -/

/-- C8 (confirmed): when the HTTP request and the JSON unmarshal both
succeed but `net.SplitHostPort` fails on the URL's authority, `gatherServer`
still succeeds — the split error is discarded (graylog.go:191 assigns it to
`_`), the metrics are still emitted, and the `server` and `port` tags are
empty strings. -/
theorem gatherServer_ignores_split_host_port_failure (h : GrayLog)
    (client : ClientFun) (u b : String) (ru : GoURL) (dat : ResponseMetrics)
    (ems : List Emitted)
    (h1 : sendRequest h client u = .ok b)
    (h2 : urlParse u = some ru)
    (h3 : splitHostPort ru.host = none)
    (h4 : jsonUnmarshalRM b = .ok dat)
    (h5 : emitMetrics "" "" dat.metrics = some ems) :
    gatherServer h client u = some (.ok ems)
    ∧ ∀ e ∈ ems, List.lookup "server" e.tags = some ""
        ∧ List.lookup "port" e.tags = some "" := by
  constructor
  · simp [gatherServer, h1, h2, h3, h4, h5]
  · exact emitMetrics_tags "" "" dat.metrics ems h5

/-- Client for the C8 witness: answers 200 with one metric record. -/
def client8 : ClientFun := fun _ =>
  .ok ⟨200, "\x7b\"metrics\":[\x7b\"full_name\":\"fn\",\"name\":\"n\",\"type\":\"t\",\"metric\":\x7b\"x\":1\x7d\x7d]\x7d"⟩

/-- The decoded response of the C8 witness. -/
def dat8 : ResponseMetrics := ⟨[⟨"fn", "n", "t", [("x", jf 1)]⟩]⟩

/-- The emission of the C8 witness: empty `server`/`port` tags. -/
def ems8 : List Emitted :=
  [⟨"fn", [("x", jf 1)],
    [("server", ""), ("port", ""), ("name", "n"), ("type", "t")]⟩]

/-- Witness for C8: the URL `http://glhost/...` has no port, so
`net.SplitHostPort` fails, yet the gather succeeds with empty host/port
tags. -/
theorem gatherServer_ignores_split_host_port_failure_witness :
    gatherServer { servers := [], metrics := [], username := "u", password := "p" } client8
        "http://glhost/system/metrics/namespace/a" = some (.ok ems8)
    ∧ ∀ e ∈ ems8, List.lookup "server" e.tags = some ""
        ∧ List.lookup "port" e.tags = some "" :=
  gatherServer_ignores_split_host_port_failure
    { servers := [], metrics := [], username := "u", password := "p" } client8
    "http://glhost/system/metrics/namespace/a"
    "\x7b\"metrics\":[\x7b\"full_name\":\"fn\",\"name\":\"n\",\"type\":\"t\",\"metric\":\x7b\"x\":1\x7d\x7d]\x7d"
    ⟨"http://glhost/system/metrics/namespace/a", "glhost"⟩ dat8 ems8
    (by rfl) (by rfl) (by rfl) (by rfl)
    (by simp [emitMetrics, flatten, flattenGo, metricTags, withUnderscore, jf, dat8, ems8,
      mapInsert])

/-- C10 (confirmed): whenever `sendRequest` returned without error for a
server URL, `url.Parse` of that same URL succeeds — `sendRequest` parsed the
identical string and would have failed otherwise — so the unchecked
`requestURL.Host` read at graylog.go:191 never dereferences a nil parse
result and the error return that follows it (graylog.go:193-195) is
unreachable. -/
theorem sendRequest_ok_implies_urlParse_ok (h : GrayLog) (client : ClientFun)
    (u b : String) (h1 : sendRequest h client u = .ok b) :
    (urlParse u).isSome = true := by
  rw [sendRequest] at h1
  cases hc : sendRequestCore h u with
  | error e => rw [hc] at h1; simp at h1
  | ok req =>
      rw [sendRequestCore_parse h u req hc]
      rfl

/-- Client for the C10 witness: always answers 200. -/
def clientOk : ClientFun := fun _ => .ok ⟨200, "ok"⟩

/-- Witness for C10 at a concrete successful request. -/
theorem sendRequest_ok_implies_urlParse_ok_witness :
    (urlParse "http://gl:12900/system/metrics/namespace/a").isSome = true :=
  sendRequest_ok_implies_urlParse_ok
    { servers := [], metrics := [], username := "u", password := "p" } clientOk
    "http://gl:12900/system/metrics/namespace/a" "ok" (by rfl)

end Graylog
